import Mathlib

/-!
Shallow embedding of `src/src/agent/NamedPipe.cc` (winpty): a bidirectional,
buffered, non-blocking byte-stream endpoint (`NamedPipe`) with per-direction
I/O workers (`InputWorker` / `OutputWorker`, both instances of `IoWorker`).

Byte sequences (`std::string` queues, `char` buffers) are modelled as
`List Nat`.  C++ `int` fields (`m_readBufferSize`, `m_currentIoSize`) are
modelled as `Int`; non-negative sizes as `Nat`.  The Windows transport
(`ReadFile`/`WriteFile`/`GetOverlappedResult`) is external to the repository,
so each service step is parameterised by an oracle describing the transport's
responses; a completion carries the byte list the transport delivered (its
length is the `actual` count reported by the API).
-/

namespace WinptyPipe

/-- Modelled from the spec: the fixed chunk size of a worker's private
transfer buffer (`kIoSize`, declared in `NamedPipe.h`, which is not under
`src/`); the spec calls it "a fixed chunk size" / "a fixed-size receive".
The winpty header sets it to 64 KiB. -/
def kIoSize : Nat := 64 * 1024

/-- State of `NamedPipe::IoWorker`: `m_pending`, `m_currentIoSize` and the
contents of the private transfer buffer `m_buffer`.  (`m_event` is an OS
event object; only its identity matters, see `WaitHandle`.) -/
structure IoWorkerState where
  pending : Bool
  currentIoSize : Int
  buffer : List Nat
  deriving Repr, DecidableEq

/-- A freshly constructed `IoWorker` (`m_pending(false), m_currentIoSize(-1)`;
the buffer contents are uninitialised, modelled as `[]`). -/
def freshWorker : IoWorkerState :=
  { pending := false, currentIoSize := -1, buffer := [] }

/-- State of a `NamedPipe`: `m_readBufferSize`, `m_handle` (modelled as the
`Bool` `handleOpen`, i.e. `m_handle != NULL`), `m_inQueue`, `m_outQueue`,
and the two optional workers. -/
structure PipeState where
  readBufferSize : Int
  handleOpen : Bool
  inQueue : List Nat
  outQueue : List Nat
  inputWorker : Option IoWorkerState
  outputWorker : Option IoWorkerState
  deriving Repr, DecidableEq

/-- `NamedPipe::NamedPipe()`: `m_readBufferSize(64 * 1024)`, null handle,
no workers. -/
def newPipe : PipeState :=
  { readBufferSize := 64 * 1024, handleOpen := false, inQueue := [],
    outQueue := [], inputWorker := none, outputWorker := none }

/-- The state after a successful `connectToServer`: handle open, both an
`InputWorker` and an `OutputWorker` created. -/
def connectedPipe : PipeState :=
  { newPipe with handleOpen := true, inputWorker := some freshWorker,
                 outputWorker := some freshWorker }

/-- `NamedPipe::isClosed()`: `m_handle == NULL`. -/
def isClosed (p : PipeState) : Bool :=
  !p.handleOpen

/-- `NamedPipe::readBufferSize()`. -/
def readBufferSize (p : PipeState) : Int :=
  p.readBufferSize

/-- `NamedPipe::setReadBufferSize(int size)`. -/
def setReadBufferSize (p : PipeState) (size : Int) : PipeState :=
  { p with readBufferSize := size }

/-- `NamedPipe::bytesAvailable()`: `m_inQueue.size()`. -/
def bytesAvailable (p : PipeState) : Nat :=
  p.inQueue.length

/-- `NamedPipe::write(const void *data, int size)`: append to `m_outQueue`. -/
def write (p : PipeState) (data : List Nat) : PipeState :=
  { p with outQueue := p.outQueue ++ data }

/-- `NamedPipe::peek(void *data, int size)`: copies the first
`min(size, m_inQueue.size())` bytes out of the input queue without
mutating anything; returned together with the (unchanged) pipe state. -/
def peek (p : PipeState) (size : Nat) : List Nat × PipeState :=
  let ret := min size p.inQueue.length
  (p.inQueue.take ret, p)

/-- `NamedPipe::read(int size)`: `retSize = min(size, m_inQueue.size())`;
returns `m_inQueue.substr(0, retSize)` and erases that prefix. -/
def read (p : PipeState) (size : Nat) : List Nat × PipeState :=
  let retSize := min size p.inQueue.length
  (p.inQueue.take retSize, { p with inQueue := p.inQueue.drop retSize })

/-- `NamedPipe::readAsVector(int size)`: same prefix as `read`, but returned
as a `std::vector<char>`, and the copy/erase only happens under an
`if (retSize > 0)` guard. -/
def readAsVector (p : PipeState) (size : Nat) : List Nat × PipeState :=
  let retSize := min size p.inQueue.length
  if retSize > 0 then
    (p.inQueue.take retSize, { p with inQueue := p.inQueue.drop retSize })
  else
    ([], p)

/-- `NamedPipe::readAll()`: returns the whole input queue and clears it. -/
def readAll (p : PipeState) : List Nat × PipeState :=
  (p.inQueue, { p with inQueue := [] })

/-- `NamedPipe::OutputWorker::getPendingIoSize()`:
`m_pending ? m_currentIoSize : 0`. -/
def getPendingIoSize (w : IoWorkerState) : Int :=
  if w.pending then w.currentIoSize else 0

/-- `NamedPipe::bytesToSend()`: `m_outQueue.size()`, plus the output worker's
pending I/O size when the worker exists. -/
def bytesToSend (p : PipeState) : Int :=
  (p.outQueue.length : Int) +
    (match p.outputWorker with
     | some w => getPendingIoSize w
     | none => 0)

/-- The identity of a worker's `m_event` object, as pushed into the caller's
wait-handle vector by `serviceIo`. -/
inductive WaitHandle where
  | readEvent
  | writeEvent
  deriving Repr, DecidableEq

/-- `NamedPipe::IoWorker::getWaitEvent()`: `m_pending ? m_event : NULL`.
`ev` is the worker's own event object. -/
def getWaitEvent (w : IoWorkerState) (ev : WaitHandle) : Option WaitHandle :=
  if w.pending then some ev else none

/-- `NamedPipe::IoWorker::waitForCanceledIo()`: blocks until the transport
acknowledges cancellation, then clears `m_pending`.  Only the state effect
is visible in the model. -/
def waitForCanceledIo (w : IoWorkerState) : IoWorkerState :=
  if w.pending then { w with pending := false } else w

/-- `NamedPipe::closePipe()`: early-returns when `m_handle == NULL`;
otherwise cancels outstanding I/O, drains both workers
(`waitForCanceledIo`), deletes both workers, closes and nulls the handle.
The queues are untouched. -/
def closePipe (p : PipeState) : PipeState :=
  if !p.handleOpen then p
  else
    { p with handleOpen := false, inputWorker := none, outputWorker := none }

/-! ## The transport oracle and the `IoWorker::service` state machine -/

/-- Outcome of one `ReadFile`/`WriteFile` issuance in the loop of
`IoWorker::service`.  `completedSync data` is the synchronous-success path
(`ret` true): for a read, `data` is what the transport placed in `m_buffer`
and `data.length` the reported `actual`; for a write, only
`data.length = actual` matters.  `goesPending` is
`!ret && GetLastError() == ERROR_IO_PENDING`; `issueError` any other
failure. -/
inductive IssueStep where
  | completedSync (data : List Nat)
  | goesPending
  | issueError
  deriving Repr, DecidableEq

/-- Outcome of the non-blocking `GetOverlappedResult` poll of a pending
operation at the top of `IoWorker::service`. -/
inductive PollStep where
  | incomplete
  | completedAsync (data : List Nat)
  | pollError
  deriving Repr, DecidableEq

/-- Result of `IoWorker::service`: `ok progress p w` is a non-negative
return value with the updated pipe and worker state; `pipeError p w` is the
`return -1` path (state at the moment of the early return); `assertFailed`
is a fired `ASSERT` in a policy's `completeIo` (process abort);
`oracleExhausted` is a model artifact marking that the supplied oracle was
shorter than the loop's demand — never reached under the theorems'
hypotheses. -/
inductive SvcResult where
  | ok (progress : Nat) (p : PipeState) (w : IoWorkerState)
  | pipeError (p : PipeState) (w : IoWorkerState)
  | assertFailed
  | oracleExhausted
  deriving Repr, DecidableEq

/-- A policy's `shouldIssueIo(int *size, bool *isRead)`: `none` when it
returns false; `some (size, isRead, p, w)` when it returns true, with any
state mutation it performed (the `OutputWorker` dequeues bytes here). -/
def Policy.ShouldIssue :=
  PipeState → IoWorkerState → Option (Nat × Bool × PipeState × IoWorkerState)

/-- A policy's `completeIo(int size)`: `none` when an `ASSERT` inside it
fires, otherwise the updated state. -/
def Policy.Complete :=
  PipeState → IoWorkerState → Nat → Option (PipeState × IoWorkerState)

/-- The `while (shouldIssueIo(&nextSize, &isRead))` loop of
`IoWorker::service`, accumulating `progress`.  Each granted operation
consumes the head of the oracle: `m_currentIoSize = nextSize`, then
issue; on synchronous completion `completeIo(actual)` runs (for a read the
transport first fills `m_buffer` with the data), `m_currentIoSize` is reset
to `-1`, `progress += actual` and the loop continues; `ERROR_IO_PENDING`
sets `m_pending` and returns; any other error returns `-1`. -/
def serviceLoop (si : Policy.ShouldIssue) (c : Policy.Complete)
    (oracle : List IssueStep) (p : PipeState) (w : IoWorkerState)
    (progress : Nat) : SvcResult :=
  match si p w with
  | none => .ok progress p w
  | some (nextSize, isRead, p1, w1) =>
    match oracle with
    | [] => .oracleExhausted
    | step :: rest =>
      let w2 := { w1 with currentIoSize := (nextSize : Int) }
      match step with
      | .goesPending => .ok progress p1 { w2 with pending := true }
      | .issueError => .pipeError p1 w2
      | .completedSync data =>
        let w3 := if isRead then { w2 with buffer := data } else w2
        match c p1 w3 data.length with
        | none => .assertFailed
        | some (p2, w4) =>
          serviceLoop si c rest p2 { w4 with currentIoSize := -1 }
            (progress + data.length)

/-- `IoWorker::service()`: if `m_pending`, poll the outstanding operation
(`GetOverlappedResult(..., FALSE)`): `ERROR_IO_INCOMPLETE` returns `0`,
another error returns `-1`, completion clears `m_pending`, runs
`completeIo(actual)` (a read first receives `data` into `m_buffer`), resets
`m_currentIoSize` and accumulates `actual`; then the issue loop runs.
`isReadWorker` tells whether this worker's operations are reads. -/
def serviceWorker (si : Policy.ShouldIssue) (c : Policy.Complete)
    (isReadWorker : Bool) (poll : PollStep) (oracle : List IssueStep)
    (p : PipeState) (w : IoWorkerState) : SvcResult :=
  if w.pending then
    match poll with
    | .incomplete => .ok 0 p w
    | .pollError => .pipeError p w
    | .completedAsync data =>
      let w1 := if isReadWorker then { w with buffer := data } else w
      let w2 := { w1 with pending := false }
      match c p w2 data.length with
      | none => .assertFailed
      | some (p1, w3) =>
        serviceLoop si c oracle p1 { w3 with currentIoSize := -1 } data.length
  else
    serviceLoop si c oracle p w 0

/-! ## The two policies -/

/-- `NamedPipe::InputWorker::completeIo(int size)`:
`m_inQueue.append(m_buffer, size)`.  No assertion. -/
def InputWorker.completeIo : Policy.Complete :=
  fun p w size =>
    some ({ p with inQueue := p.inQueue ++ w.buffer.take size }, w)

/-- `NamedPipe::InputWorker::shouldIssueIo`: `*isRead = true`; refuses when
the pipe is closed; grants a read of `kIoSize` iff
`(int)m_inQueue.size() < readBufferSize()`. -/
def InputWorker.shouldIssueIo : Policy.ShouldIssue :=
  fun p w =>
    if isClosed p then none
    else if (p.inQueue.length : Int) < p.readBufferSize then
      some (kIoSize, true, p, w)
    else none

/-- `NamedPipe::OutputWorker::completeIo(int size)`:
`ASSERT(size == m_currentIoSize)`. -/
def OutputWorker.completeIo : Policy.Complete :=
  fun p w size =>
    if (size : Int) = w.currentIoSize then some (p, w) else none

/-- `NamedPipe::OutputWorker::shouldIssueIo`: `*isRead = false`; grants iff
`m_outQueue` is non-empty; `writeSize = min(m_outQueue.size(), kIoSize)`;
`memcpy`s that prefix into the front of `m_buffer` and erases it from the
queue at issuance time. -/
def OutputWorker.shouldIssueIo : Policy.ShouldIssue :=
  fun p w =>
    if p.outQueue.isEmpty then none
    else
      let writeSize := min p.outQueue.length kIoSize
      some (writeSize, false,
        { p with outQueue := p.outQueue.drop writeSize },
        { w with buffer := p.outQueue.take writeSize ++ w.buffer.drop writeSize })

/-- `InputWorker`'s instantiation of `IoWorker::service`. -/
def InputWorker.service (poll : PollStep) (oracle : List IssueStep)
    (p : PipeState) (w : IoWorkerState) : SvcResult :=
  serviceWorker InputWorker.shouldIssueIo InputWorker.completeIo true
    poll oracle p w

/-- `OutputWorker`'s instantiation of `IoWorker::service`. -/
def OutputWorker.service (poll : PollStep) (oracle : List IssueStep)
    (p : PipeState) (w : IoWorkerState) : SvcResult :=
  serviceWorker OutputWorker.shouldIssueIo OutputWorker.completeIo false
    poll oracle p w

/-! ## `NamedPipe::serviceIo` -/

/-- The transport's responses for one `serviceIo` tick: the poll outcome and
issuance outcomes for each direction's worker. -/
structure TickOracle where
  inPoll : PollStep
  inOracle : List IssueStep
  outPoll : PollStep
  outOracle : List IssueStep
  deriving Repr, DecidableEq

/-- Abnormal termination of the model: a fired `ASSERT`, or an exhausted
oracle (model artifact). -/
inductive AbortKind where
  | fatalAssert
  | exhausted
  deriving Repr, DecidableEq

/-- The input-worker half of `serviceIo`: `readBytes = m_inputWorker->service()`
then `readHandle = m_inputWorker->getWaitEvent()`, with `readBytes = 0` and a
null handle when there is no input worker. -/
def runInputPhase (o : TickOracle) (p : PipeState) :
    Except AbortKind (Int × Option WaitHandle × PipeState) :=
  match p.inputWorker with
  | none => .ok (0, none, p)
  | some w =>
    match InputWorker.service o.inPoll o.inOracle p w with
    | .ok n p1 w1 =>
      .ok ((n : Int), getWaitEvent w1 .readEvent,
           { p1 with inputWorker := some w1 })
    | .pipeError p1 w1 =>
      .ok (-1, getWaitEvent w1 .readEvent, { p1 with inputWorker := some w1 })
    | .assertFailed => .error .fatalAssert
    | .oracleExhausted => .error .exhausted

/-- The output-worker half of `serviceIo`, analogous to `runInputPhase`. -/
def runOutputPhase (o : TickOracle) (p : PipeState) :
    Except AbortKind (Int × Option WaitHandle × PipeState) :=
  match p.outputWorker with
  | none => .ok (0, none, p)
  | some w =>
    match OutputWorker.service o.outPoll o.outOracle p w with
    | .ok n p1 w1 =>
      .ok ((n : Int), getWaitEvent w1 .writeEvent,
           { p1 with outputWorker := some w1 })
    | .pipeError p1 w1 =>
      .ok (-1, getWaitEvent w1 .writeEvent, { p1 with outputWorker := some w1 })
    | .assertFailed => .error .fatalAssert
    | .oracleExhausted => .error .exhausted

/-- Result of `serviceIo`: the returned `Bool`, the pipe state afterwards and
the caller's wait-handle vector afterwards; or an abnormal termination. -/
inductive ServiceIoResult where
  | ret (changed : Bool) (p : PipeState) (handles : List WaitHandle)
  | aborted (k : AbortKind)
  deriving Repr, DecidableEq

/-- `NamedPipe::serviceIo(std::vector<HANDLE> *waitHandles)`: returns false
immediately when `m_handle == NULL`; services the input worker then the
output worker; if either returned `-1`, calls `closePipe()` and returns
true; otherwise pushes each non-null wait handle and returns
`readBytes > 0 || writeBytes > 0`. -/
def serviceIo (p : PipeState) (o : TickOracle) (waitHandles : List WaitHandle) :
    ServiceIoResult :=
  if !p.handleOpen then .ret false p waitHandles
  else
    match runInputPhase o p with
    | .error k => .aborted k
    | .ok (readBytes, readHandle, p1) =>
      match runOutputPhase o p1 with
      | .error k => .aborted k
      | .ok (writeBytes, writeHandle, p2) =>
        if readBytes = -1 ∨ writeBytes = -1 then
          .ret true (closePipe p2) waitHandles
        else
          .ret (decide (0 < readBytes) || decide (0 < writeBytes)) p2
            (waitHandles ++ readHandle.toList ++ writeHandle.toList)

/-! ## Traces of endpoint operations (for the backpressure invariant) -/

/-- One externally driven operation on an endpoint: a producer `write`, a
consumer `read`/`readAll`/`peek`, or one `serviceIo` tick with the
transport's responses. -/
inductive PipeOp where
  | doWrite (data : List Nat)
  | doRead (n : Nat)
  | doReadAll
  | doPeek (n : Nat)
  | doTick (o : TickOracle)
  deriving Repr, DecidableEq

/-- Apply one operation; `none` when a tick ends in a fired assertion or in
the oracle-exhausted model artifact. -/
def applyOp (p : PipeState) : PipeOp → Option PipeState
  | .doWrite data => some (write p data)
  | .doRead n => some (read p n).2
  | .doReadAll => some (readAll p).2
  | .doPeek n => some (peek p n).2
  | .doTick o =>
    match serviceIo p o [] with
    | .ret changed p' handles => some p'
    | .aborted k => none

/-- Run a list of operations left to right. -/
def runOps (p : PipeState) : List PipeOp → Option PipeState
  | [] => some p
  | op :: ops =>
    match applyOp p op with
    | none => none
    | some p' => runOps p' ops

/-- A physically possible poll outcome for the Reader: `GetOverlappedResult`
never reports more bytes than the `kIoSize` the read requested. -/
def validPoll : PollStep → Bool
  | .completedAsync data => data.length ≤ kIoSize
  | _ => true

/-- A physically possible issuance outcome for the Reader: a synchronous
`ReadFile` completion delivers at most the `kIoSize` bytes requested. -/
def validIssueStep : IssueStep → Bool
  | .completedSync data => data.length ≤ kIoSize
  | _ => true

/-- A tick oracle whose Reader-side responses are physically possible. -/
def validTick (o : TickOracle) : Bool :=
  validPoll o.inPoll && o.inOracle.all validIssueStep

/-- An operation whose transport responses are physically possible. -/
def validOp : PipeOp → Bool
  | .doTick o => validTick o
  | _ => true

/-- The Reader-side invariant, relative to a fixed configured limit `B`:
the limit is `B`, the input queue holds at most `B - 1 + kIoSize` bytes,
and while a receive is outstanding it holds at most `B - 1` (a receive is
only issued strictly below the limit, and the queue cannot grow while one
is outstanding). -/
def readerInvB (B : Int) (p : PipeState) : Prop :=
  p.readBufferSize = B ∧
  (p.inQueue.length : Int) ≤ B - 1 + kIoSize ∧
  ∀ w, p.inputWorker = some w → w.pending = true →
    (p.inQueue.length : Int) ≤ B - 1

/-- What the input worker's service step guarantees, relative to the pipe
state `p0` it started from: limit and handle unchanged, queue within
`B - 1 + kIoSize`, and within `B - 1` whenever the worker is left Pending. -/
def inputSvcInv (p0 : PipeState) : SvcResult → Prop
  | .ok _ p' w' =>
      p'.readBufferSize = p0.readBufferSize ∧ p'.handleOpen = p0.handleOpen ∧
      (p'.inQueue.length : Int) ≤ p0.readBufferSize - 1 + kIoSize ∧
      (w'.pending = true →
        (p'.inQueue.length : Int) ≤ p0.readBufferSize - 1)
  | .pipeError p' w' =>
      p'.readBufferSize = p0.readBufferSize ∧ p'.handleOpen = p0.handleOpen ∧
      (p'.inQueue.length : Int) ≤ p0.readBufferSize - 1 + kIoSize ∧
      (w'.pending = true →
        (p'.inQueue.length : Int) ≤ p0.readBufferSize - 1)
  | .assertFailed => True
  | .oracleExhausted => True

/-- What the output worker's service step leaves untouched, relative to the
pipe state `p0` it started from: the input queue, the input worker, the
handle and the configured limit. -/
def preservesInputSide (p0 : PipeState) : SvcResult → Prop
  | .ok _ p' _ =>
      p'.inQueue = p0.inQueue ∧ p'.inputWorker = p0.inputWorker ∧
      p'.readBufferSize = p0.readBufferSize ∧ p'.handleOpen = p0.handleOpen
  | .pipeError p' _ =>
      p'.inQueue = p0.inQueue ∧ p'.inputWorker = p0.inputWorker ∧
      p'.readBufferSize = p0.readBufferSize ∧ p'.handleOpen = p0.handleOpen
  | .assertFailed => True
  | .oracleExhausted => True

/-- A tick oracle violating the claimed backpressure bound on an endpoint
whose limit was configured to 2: the first receive completes synchronously
with 1 byte, the drain loop (1 < 2) grants another receive, which completes
synchronously with 2 bytes. -/
def c2Tick : TickOracle :=
  { inPoll := .incomplete,
    inOracle := [.completedSync [5], .completedSync [6, 7]],
    outPoll := .incomplete, outOracle := [] }

/-- The state after running `c2Tick` on a fresh endpoint configured with
read-capacity limit 2: three bytes are buffered. -/
def c2FinalState : PipeState :=
  { readBufferSize := 2, handleOpen := true, inQueue := [5, 6, 7],
    outQueue := [],
    inputWorker := some { pending := false, currentIoSize := -1,
                          buffer := [6, 7] },
    outputWorker := some freshWorker }

/-! ## Helper lemmas -/

/-- Folding `write` over a list of byte chunks only appends their
concatenation to the output queue. -/
theorem foldl_write_state (datas : List (List Nat)) (s : PipeState) :
    datas.foldl write s = { s with outQueue := s.outQueue ++ datas.flatten } := by
  induction datas generalizing s with
  | nil => simp
  | cons d ds ih =>
    simp only [List.foldl_cons, List.flatten_cons, ih, write, List.append_assoc]

/-- `closePipe` always leaves the endpoint closed. -/
theorem isClosed_closePipe (p : PipeState) : isClosed (closePipe p) = true := by
  unfold isClosed closePipe
  by_cases h : p.handleOpen <;> simp [h]

/-! ## Claim theorems (part 1) -/

/-- C1: `bytesToSend()` is the output-queue length plus, when a Writer
exists and has an operation pending, the outstanding operation's size (and
plus 0 otherwise); and for any sequence of `write` calls performed on a
freshly connected endpoint before any service tick, `bytesToSend()` is the
exact sum of the byte counts written. -/
theorem c1_bytesToSend_spec (p : PipeState) (datas : List (List Nat)) :
    (bytesToSend p =
      (p.outQueue.length : Int) +
        (match p.outputWorker with
         | some w => if w.pending then w.currentIoSize else 0
         | none => 0)) ∧
    bytesToSend (datas.foldl write connectedPipe) =
      ((datas.map List.length).sum : Int) := by
  constructor
  · simp only [bytesToSend, getPendingIoSize]
  · rw [foldl_write_state]
    simp [bytesToSend, connectedPipe, newPipe, freshWorker, getPendingIoSize,
      List.length_flatten]

/-- C5: the Writer's `shouldIssueIo` grants a send exactly when the output
queue is non-empty; it then copies `min(queue length, kIoSize)` bytes from
the front of the queue into the front of the private buffer, removes exactly
those bytes from the queue at issuance time, and the issued size equals the
number of bytes removed. -/
theorem c5_writer_issue (p : PipeState) (w : IoWorkerState) :
    (p.outQueue = [] → OutputWorker.shouldIssueIo p w = none) ∧
    (p.outQueue ≠ [] →
      OutputWorker.shouldIssueIo p w =
        some (min p.outQueue.length kIoSize, false,
          { p with outQueue := p.outQueue.drop (min p.outQueue.length kIoSize) },
          { w with buffer :=
              p.outQueue.take (min p.outQueue.length kIoSize) ++
                w.buffer.drop (min p.outQueue.length kIoSize) }) ∧
      min p.outQueue.length kIoSize +
          (p.outQueue.drop (min p.outQueue.length kIoSize)).length =
        p.outQueue.length) := by
  constructor
  · intro h
    simp [OutputWorker.shouldIssueIo, h]
  · intro h
    refine ⟨by simp [OutputWorker.shouldIssueIo, List.isEmpty_iff, h], ?_⟩
    have hmin : min p.outQueue.length kIoSize ≤ p.outQueue.length :=
      Nat.min_le_left _ _
    simp [List.length_drop]

/-- Witness for C5 at a concrete non-empty output queue of three bytes:
the grant issues all 3 queued bytes, copies them into the private buffer
and leaves the queue empty. -/
theorem c5_writer_issue_witness :
    OutputWorker.shouldIssueIo (write connectedPipe [1, 2, 3]) freshWorker =
      some (3, false,
        { readBufferSize := 64 * 1024, handleOpen := true, inQueue := [],
          outQueue := [], inputWorker := some freshWorker,
          outputWorker := some freshWorker },
        { pending := false, currentIoSize := -1, buffer := [1, 2, 3] }) ∧
    3 + (0 : Nat) = 3 :=
  (c5_writer_issue (write connectedPipe [1, 2, 3]) freshWorker).2 (by decide)

/-- C6: `closePipe` is idempotent: on an already-closed endpoint it is a
no-op; otherwise it destroys both workers and releases the handle, after
which `isClosed` is true and a second `closePipe` is a no-op. -/
theorem c6_close_idempotent (p : PipeState) :
    (isClosed p = true → closePipe p = p) ∧
    isClosed (closePipe p) = true ∧
    (isClosed p = false →
      closePipe p =
        { p with handleOpen := false, inputWorker := none,
                 outputWorker := none }) ∧
    closePipe (closePipe p) = closePipe p := by
  refine ⟨?_, isClosed_closePipe p, ?_, ?_⟩
  · intro h
    simp only [isClosed, Bool.not_eq_true'] at h
    simp [closePipe, h]
  · intro h
    simp only [isClosed, Bool.not_eq_false] at h
    simp [closePipe, h]
  · by_cases h : p.handleOpen <;> simp [closePipe, h]

/-- Witness for C6 at a concrete open endpoint. -/
theorem c6_close_idempotent_witness :
    closePipe connectedPipe =
      { connectedPipe with handleOpen := false, inputWorker := none,
                           outputWorker := none } :=
  (c6_close_idempotent connectedPipe).2.2.1 (by decide)

/-- C7: `read n` returns the first `min(n, bytesAvailable)` bytes of the
input queue, removes exactly those bytes from the front (decreasing
`bytesAvailable` by exactly that amount); `peek n` returns the same prefix
and leaves the state unchanged. -/
theorem c7_read_peek (p : PipeState) (n : Nat) :
    (read p n).1 = p.inQueue.take (min n (bytesAvailable p)) ∧
    bytesAvailable (read p n).2 =
      bytesAvailable p - min n (bytesAvailable p) ∧
    (read p n).1 ++ (read p n).2.inQueue = p.inQueue ∧
    (peek p n).1 = p.inQueue.take (min n (bytesAvailable p)) ∧
    (peek p n).2 = p := by
  refine ⟨rfl, ?_, List.take_append_drop _ _, rfl, rfl⟩
  simp [read, bytesAvailable]

/-- C8: the Writer's `completeIo` assertion `size == m_currentIoSize` passes
for every completion reporting the full issued size, and any mismatch is a
fatal (asserting) path, not a recoverable one. -/
theorem c8_writer_complete_assert (p : PipeState) (w : IoWorkerState)
    (size : Nat) :
    ((size : Int) = w.currentIoSize →
      OutputWorker.completeIo p w size = some (p, w)) ∧
    ((size : Int) ≠ w.currentIoSize →
      OutputWorker.completeIo p w size = none) := by
  constructor <;> intro h <;> simp [OutputWorker.completeIo, h]

/-- Witness for C8 at a concrete matching and a concrete mismatching
completion size. -/
theorem c8_writer_complete_assert_witness :
    OutputWorker.completeIo connectedPipe
        { freshWorker with currentIoSize := 3 } 3 =
      some (connectedPipe, { freshWorker with currentIoSize := 3 }) ∧
    OutputWorker.completeIo connectedPipe
        { freshWorker with currentIoSize := 3 } 4 = none :=
  ⟨(c8_writer_complete_assert connectedPipe
      { freshWorker with currentIoSize := 3 } 3).1 (by decide),
   (c8_writer_complete_assert connectedPipe
      { freshWorker with currentIoSize := 3 } 4).2 (by decide)⟩

/-- C9: a worker's `getWaitEvent` returns its (non-null) event handle
exactly when the worker is Pending; an Idle worker exposes no handle. -/
theorem c9_wait_event (w : IoWorkerState) (ev : WaitHandle) :
    (getWaitEvent w ev).isSome = w.pending ∧
    (w.pending = true → getWaitEvent w ev = some ev) ∧
    (w.pending = false → getWaitEvent w ev = none) := by
  unfold getWaitEvent
  by_cases h : w.pending <;> simp [h]

/-- Witness for C9 at a concrete Pending and a concrete Idle worker. -/
theorem c9_wait_event_witness :
    getWaitEvent { freshWorker with pending := true } WaitHandle.readEvent =
        some WaitHandle.readEvent ∧
    getWaitEvent freshWorker WaitHandle.writeEvent = none :=
  ⟨(c9_wait_event { freshWorker with pending := true }
      WaitHandle.readEvent).2.1 (by decide),
   (c9_wait_event freshWorker WaitHandle.writeEvent).2.2 (by decide)⟩

/-- C10: `readAsVector n` is observationally equivalent to `read n`: the
same returned byte sequence and the same resulting input queue, including
the `n = 0` and empty-queue cases. -/
theorem c10_readAsVector_eq_read (p : PipeState) (n : Nat) :
    readAsVector p n = read p n := by
  unfold readAsVector read
  by_cases h : 0 < min n p.inQueue.length
  · simp [h]
  · have h0 : min n p.inQueue.length = 0 := by omega
    simp [h0]

/-- C4: a worker's advance step follows the specified state machine.  If
Pending, it polls completion: still incomplete returns 0 with nothing
changed, a transport error returns −1 (`pipeError`), and a completion runs
`completeIo`, transitions to Idle and continues into the issue loop with
the completed size accumulated.  While Idle, the loop asks the policy for
work: no grant returns the accumulated progress; a granted operation that
goes pending records the outstanding size and returns; an issuance error
returns −1; a synchronous completion runs `completeIo`, accumulates and
loops again, so all currently available work is issued within one call. -/
theorem c4_worker_state_machine (si : Policy.ShouldIssue) (c : Policy.Complete)
    (isR : Bool) (poll : PollStep) (oracle : List IssueStep) (p : PipeState)
    (w : IoWorkerState) (progress : Nat) :
    (w.pending = true →
      serviceWorker si c isR .incomplete oracle p w = .ok 0 p w) ∧
    (w.pending = true →
      serviceWorker si c isR .pollError oracle p w = .pipeError p w) ∧
    (∀ data p1 w1,
      w.pending = true →
      c p (if isR then { w with pending := false, buffer := data }
           else { w with pending := false }) data.length = some (p1, w1) →
      serviceWorker si c isR (.completedAsync data) oracle p w =
        serviceLoop si c oracle p1 { w1 with currentIoSize := -1 }
          data.length) ∧
    (w.pending = false →
      serviceWorker si c isR poll oracle p w = serviceLoop si c oracle p w 0) ∧
    (si p w = none → serviceLoop si c oracle p w progress = .ok progress p w) ∧
    (∀ sz isRead p1 w1 rest,
      si p w = some (sz, isRead, p1, w1) →
      serviceLoop si c (.goesPending :: rest) p w progress =
        .ok progress p1
          { w1 with pending := true, currentIoSize := (sz : Int) }) ∧
    (∀ sz isRead p1 w1 rest,
      si p w = some (sz, isRead, p1, w1) →
      serviceLoop si c (.issueError :: rest) p w progress =
        .pipeError p1 { w1 with currentIoSize := (sz : Int) }) ∧
    (∀ sz isRead p1 w1 data rest p2 w2,
      si p w = some (sz, isRead, p1, w1) →
      c p1 (if isRead then { w1 with currentIoSize := (sz : Int), buffer := data }
            else { w1 with currentIoSize := (sz : Int) }) data.length =
        some (p2, w2) →
      serviceLoop si c (.completedSync data :: rest) p w progress =
        serviceLoop si c rest p2 { w2 with currentIoSize := -1 }
          (progress + data.length)) := by
  refine ⟨?_, ?_, ?_, ?_, ?_, ?_, ?_, ?_⟩
  · intro hp
    simp [serviceWorker, hp]
  · intro hp
    simp [serviceWorker, hp]
  · intro data p1 w1 hp hc
    cases isR <;> simp_all [serviceWorker]
  · intro hp
    cases poll <;> simp [serviceWorker, hp]
  · intro hsi
    rw [serviceLoop, hsi]
  · intro sz isRead p1 w1 rest hsi
    rw [serviceLoop, hsi]
  · intro sz isRead p1 w1 rest hsi
    rw [serviceLoop, hsi]
  · intro sz isRead p1 w1 data rest p2 w2 hsi hc
    rw [serviceLoop, hsi]
    cases isRead <;> simp_all

/-- Witness for C4 at concrete inputs: a Pending reader whose poll is still
incomplete returns 0 unchanged, and an Idle writer with an empty output
queue is granted no work and returns its accumulated progress. -/
theorem c4_worker_state_machine_witness :
    serviceWorker InputWorker.shouldIssueIo InputWorker.completeIo true
        .incomplete [] connectedPipe { freshWorker with pending := true } =
      .ok 0 connectedPipe { freshWorker with pending := true } ∧
    serviceLoop OutputWorker.shouldIssueIo OutputWorker.completeIo []
        connectedPipe freshWorker 7 =
      .ok 7 connectedPipe freshWorker :=
  ⟨(c4_worker_state_machine InputWorker.shouldIssueIo InputWorker.completeIo
      true .incomplete [] connectedPipe { freshWorker with pending := true }
      0).1 (by decide),
   (c4_worker_state_machine OutputWorker.shouldIssueIo OutputWorker.completeIo
      false .incomplete [] connectedPipe freshWorker 7).2.2.2.2.1
     (by decide)⟩

/-- C3: `serviceIo` on a closed endpoint returns false with the handle set
untouched; on an open endpoint, with the two workers' phases yielding
`readBytes`/`writeBytes` and their wait handles, a transport failure
(either count −1) tears the endpoint down via `closePipe` and returns true,
after which `isClosed` is true and every subsequent `serviceIo` returns
false; otherwise it appends each non-null wait handle to the caller's set
and returns true exactly when some bytes moved in either direction. -/
theorem c3_service_tick (p : PipeState) (o : TickOracle)
    (hs : List WaitHandle) :
    (isClosed p = true → serviceIo p o hs = .ret false p hs) ∧
    (∀ rb rh p1 wb wh p2,
      p.handleOpen = true →
      runInputPhase o p = .ok (rb, rh, p1) →
      runOutputPhase o p1 = .ok (wb, wh, p2) →
      ((rb = -1 ∨ wb = -1) →
        serviceIo p o hs = .ret true (closePipe p2) hs ∧
        isClosed (closePipe p2) = true ∧
        (∀ o' hs', serviceIo (closePipe p2) o' hs' =
          .ret false (closePipe p2) hs')) ∧
      (¬(rb = -1 ∨ wb = -1) →
        serviceIo p o hs =
          .ret (decide (0 < rb) || decide (0 < wb)) p2
            (hs ++ rh.toList ++ wh.toList))) := by
  constructor
  · intro h
    simp only [isClosed, Bool.not_eq_true'] at h
    simp [serviceIo, h]
  · intro rb rh p1 wb wh p2 hopen hin hout
    constructor
    · intro herr
      refine ⟨by simp [serviceIo, hopen, hin, hout, herr], isClosed_closePipe p2, ?_⟩
      intro o' hs'
      have hcl : (closePipe p2).handleOpen = false := by
        have := isClosed_closePipe p2
        simpa [isClosed] using this
      simp [serviceIo, hcl]
    · intro herr
      simp [serviceIo, hopen, hin, hout, herr]

/-- Witness for C3 at concrete inputs: a fresh connected endpoint whose
reader's first receive goes pending returns false and registers the read
wait handle; an endpoint whose pending read polls as a transport error
returns true once, is closed afterwards, and returns false thereafter. -/
theorem c3_service_tick_witness :
    serviceIo connectedPipe ⟨.incomplete, [.goesPending], .incomplete, []⟩ [] =
      .ret false
        { connectedPipe with
            inputWorker :=
              some { pending := true, currentIoSize := (kIoSize : Int),
                     buffer := [] } }
        [WaitHandle.readEvent] ∧
    serviceIo
        { connectedPipe with
            inputWorker :=
              some { pending := true, currentIoSize := (kIoSize : Int),
                     buffer := [] } }
        ⟨.pollError, [], .incomplete, []⟩ [] =
      .ret true
        (closePipe
          { connectedPipe with
              inputWorker :=
                some { pending := true, currentIoSize := (kIoSize : Int),
                       buffer := [] } })
        [] := by
  constructor
  · have h :=
      ((c3_service_tick connectedPipe
          ⟨.incomplete, [.goesPending], .incomplete, []⟩ []).2 0
        (some .readEvent)
        { connectedPipe with
            inputWorker :=
              some { pending := true, currentIoSize := (kIoSize : Int),
                     buffer := [] } }
        0 none
        { connectedPipe with
            inputWorker :=
              some { pending := true, currentIoSize := (kIoSize : Int),
                     buffer := [] } }
        (by decide) (by rfl) (by rfl)).2 (by decide)
    simpa using h
  · exact
      (((c3_service_tick
          { connectedPipe with
              inputWorker :=
                some { pending := true, currentIoSize := (kIoSize : Int),
                       buffer := [] } }
          ⟨.pollError, [], .incomplete, []⟩ []).2 (-1)
        (some .readEvent)
        { connectedPipe with
            inputWorker :=
              some { pending := true, currentIoSize := (kIoSize : Int),
                     buffer := [] } }
        0 none
        { connectedPipe with
            inputWorker :=
              some { pending := true, currentIoSize := (kIoSize : Int),
                     buffer := [] } }
        (by decide) (by rfl) (by rfl)).1 (by decide)).1

/-! ## Backpressure: the Reader-side invariant -/

/-- `inputSvcInv` only reads the limit and handle of its base state. -/
theorem inputSvcInv_trans {p q : PipeState} {r : SvcResult}
    (h : inputSvcInv q r) (h3 : q.readBufferSize = p.readBufferSize)
    (h4 : q.handleOpen = p.handleOpen) : inputSvcInv p r := by
  cases r with
  | ok n p' w' =>
    exact ⟨h.1.trans h3, h.2.1.trans h4, h3 ▸ h.2.2.1,
      fun hp => h3 ▸ h.2.2.2 hp⟩
  | pipeError p' w' =>
    exact ⟨h.1.trans h3, h.2.1.trans h4, h3 ▸ h.2.2.1,
      fun hp => h3 ▸ h.2.2.2 hp⟩
  | assertFailed => trivial
  | oracleExhausted => trivial

/-- `preservesInputSide` composes along equal input-side fields. -/
theorem preservesInputSide_trans {p q : PipeState} {r : SvcResult}
    (h : preservesInputSide q r)
    (h1 : q.inQueue = p.inQueue) (h2 : q.inputWorker = p.inputWorker)
    (h3 : q.readBufferSize = p.readBufferSize)
    (h4 : q.handleOpen = p.handleOpen) : preservesInputSide p r := by
  cases r with
  | ok n p' w' =>
    exact ⟨h.1.trans h1, h.2.1.trans h2, h.2.2.1.trans h3, h.2.2.2.trans h4⟩
  | pipeError p' w' =>
    exact ⟨h.1.trans h1, h.2.1.trans h2, h.2.2.1.trans h3, h.2.2.2.trans h4⟩
  | assertFailed => trivial
  | oracleExhausted => trivial

/-- The Writer's issue loop never touches the input side of the pipe. -/
theorem outputLoop_preservesInputSide (oracle : List IssueStep) :
    ∀ (p : PipeState) (w : IoWorkerState) (progress : Nat),
      preservesInputSide p (serviceLoop OutputWorker.shouldIssueIo
        OutputWorker.completeIo oracle p w progress) := by
  induction oracle with
  | nil =>
    intro p w progress
    rw [serviceLoop]
    simp only [OutputWorker.shouldIssueIo]
    by_cases he : p.outQueue.isEmpty = true
    · rw [if_pos he]
      exact ⟨rfl, rfl, rfl, rfl⟩
    · rw [if_neg he]
      trivial
  | cons step rest ih =>
    intro p w progress
    rw [serviceLoop]
    simp only [OutputWorker.shouldIssueIo]
    by_cases he : p.outQueue.isEmpty = true
    · rw [if_pos he]
      exact ⟨rfl, rfl, rfl, rfl⟩
    · rw [if_neg he]
      cases step with
      | goesPending => exact ⟨rfl, rfl, rfl, rfl⟩
      | issueError => exact ⟨rfl, rfl, rfl, rfl⟩
      | completedSync data =>
        show preservesInputSide p
          (match OutputWorker.completeIo _ _ data.length with
           | none => SvcResult.assertFailed
           | some (p2, w4) =>
             serviceLoop OutputWorker.shouldIssueIo OutputWorker.completeIo
               rest p2 { w4 with currentIoSize := -1 }
               (progress + data.length))
        simp only [OutputWorker.completeIo, Bool.false_eq_true, if_false]
        by_cases hc : (data.length : Int) =
            (min p.outQueue.length kIoSize : Nat)
        · rw [if_pos hc]
          exact preservesInputSide_trans
            (ih { p with outQueue :=
                    p.outQueue.drop (min p.outQueue.length kIoSize) } _ _)
            rfl rfl rfl rfl
        · rw [if_neg hc]
          trivial

/-- The Writer's whole service step never touches the input side. -/
theorem outputService_preservesInputSide (poll : PollStep)
    (oracle : List IssueStep) (p : PipeState) (w : IoWorkerState) :
    preservesInputSide p (OutputWorker.service poll oracle p w) := by
  unfold OutputWorker.service serviceWorker
  by_cases hp : w.pending = true
  · rw [if_pos hp]
    cases poll with
    | incomplete => exact ⟨rfl, rfl, rfl, rfl⟩
    | pollError => exact ⟨rfl, rfl, rfl, rfl⟩
    | completedAsync data =>
      show preservesInputSide p
        (match OutputWorker.completeIo p { w with pending := false }
            data.length with
         | none => SvcResult.assertFailed
         | some (p1, w3) =>
           serviceLoop OutputWorker.shouldIssueIo OutputWorker.completeIo
             oracle p1 { w3 with currentIoSize := -1 } data.length)
      simp only [OutputWorker.completeIo]
      by_cases hc : (data.length : Int) = w.currentIoSize
      · rw [if_pos hc]
        exact outputLoop_preservesInputSide oracle p _ _
      · rw [if_neg hc]
        trivial
  · rw [if_neg hp]
    exact outputLoop_preservesInputSide oracle p w 0

/-- The Reader's issue loop preserves the input-side bounds: it only grants
a receive strictly below the limit, and a valid transport delivers at most
`kIoSize` bytes per completion. -/
theorem inputLoop_inv (oracle : List IssueStep) :
    ∀ (p : PipeState) (w : IoWorkerState) (progress : Nat),
      oracle.all validIssueStep = true → w.pending = false →
      (p.inQueue.length : Int) ≤ p.readBufferSize - 1 + kIoSize →
      inputSvcInv p (serviceLoop InputWorker.shouldIssueIo
        InputWorker.completeIo oracle p w progress) := by
  induction oracle with
  | nil =>
    intro p w progress _ hwp hlen
    rw [serviceLoop]
    simp only [InputWorker.shouldIssueIo]
    by_cases hcl : isClosed p = true
    · rw [if_pos hcl]
      exact ⟨rfl, rfl, hlen, fun hp => by simp [hwp] at hp⟩
    · rw [if_neg hcl]
      by_cases hlt : (p.inQueue.length : Int) < p.readBufferSize
      · rw [if_pos hlt]
        trivial
      · rw [if_neg hlt]
        exact ⟨rfl, rfl, hlen, fun hp => by simp [hwp] at hp⟩
  | cons step rest ih =>
    intro p w progress hval hwp hlen
    have hstep : validIssueStep step = true := by
      simp only [List.all_cons, Bool.and_eq_true] at hval
      exact hval.1
    have hrest : rest.all validIssueStep = true := by
      simp only [List.all_cons, Bool.and_eq_true] at hval
      exact hval.2
    rw [serviceLoop]
    simp only [InputWorker.shouldIssueIo]
    by_cases hcl : isClosed p = true
    · rw [if_pos hcl]
      exact ⟨rfl, rfl, hlen, fun hp => by simp [hwp] at hp⟩
    · rw [if_neg hcl]
      by_cases hlt : (p.inQueue.length : Int) < p.readBufferSize
      · rw [if_pos hlt]
        cases step with
        | goesPending => exact ⟨rfl, rfl, hlen, fun _ => by omega⟩
        | issueError => exact ⟨rfl, rfl, hlen, fun hp => by simp [hwp] at hp⟩
        | completedSync data =>
          have hdata : data.length ≤ kIoSize := by
            simpa [validIssueStep] using hstep
          refine inputSvcInv_trans
            (ih { p with inQueue := p.inQueue ++ data.take data.length }
              { w with currentIoSize := -1, buffer := data,
                       pending := w.pending }
              (progress + data.length) hrest (by simp [hwp]) ?_) rfl rfl
          simp only [List.length_append, List.length_take, Nat.min_self]
          push_cast
          omega
      · rw [if_neg hlt]
        exact ⟨rfl, rfl, hlen, fun hp => by simp [hwp] at hp⟩

/-- The Reader's whole service step preserves the input-side bounds. -/
theorem inputService_inv (poll : PollStep) (oracle : List IssueStep)
    (p : PipeState) (w : IoWorkerState)
    (hvp : validPoll poll = true)
    (hval : oracle.all validIssueStep = true)
    (hlen : (p.inQueue.length : Int) ≤ p.readBufferSize - 1 + kIoSize)
    (hpend : w.pending = true →
      (p.inQueue.length : Int) ≤ p.readBufferSize - 1) :
    inputSvcInv p (InputWorker.service poll oracle p w) := by
  unfold InputWorker.service serviceWorker
  by_cases hp : w.pending = true
  · rw [if_pos hp]
    cases poll with
    | incomplete => exact ⟨rfl, rfl, hlen, fun _ => hpend hp⟩
    | pollError => exact ⟨rfl, rfl, hlen, fun _ => hpend hp⟩
    | completedAsync data =>
      have hdata : data.length ≤ kIoSize := by
        simpa [validPoll] using hvp
      refine inputSvcInv_trans
        (inputLoop_inv oracle
          { p with inQueue := p.inQueue ++ data.take data.length }
          { w with buffer := data, pending := false, currentIoSize := -1 }
          data.length hval rfl ?_) rfl rfl
      simp only [List.length_append, List.length_take, Nat.min_self]
      have := hpend hp
      push_cast
      omega
  · rw [if_neg hp]
    exact inputLoop_inv oracle p w 0 hval (by simpa using hp) hlen

/-- A `serviceIo` tick with physically possible transport responses
preserves the Reader-side invariant. -/
theorem serviceIo_readerInv (B : Int) (p : PipeState) (o : TickOracle)
    (hs : List WaitHandle) (hv : validTick o = true) (hinv : readerInvB B p) :
    ∀ (b : Bool) (p' : PipeState) (hs' : List WaitHandle),
      serviceIo p o hs = .ret b p' hs' → readerInvB B p' := by
  intro b p' hs' h
  have hvp : validPoll o.inPoll = true := by
    simp only [validTick, Bool.and_eq_true] at hv
    exact hv.1
  have hvo : o.inOracle.all validIssueStep = true := by
    simp only [validTick, Bool.and_eq_true] at hv
    exact hv.2
  unfold serviceIo at h
  by_cases hop : p.handleOpen = true
  · rw [if_neg (by simp [hop])] at h
    split at h
    next k heq => simp at h
    next rb rh p1 heq =>
      split at h
      next k heq2 => simp at h
      next wb wh p2 heq2 =>
        have hinv1 : readerInvB B p1 ∧ p1.handleOpen = true := by
          unfold runInputPhase at heq
          split at heq
          next hw =>
            simp only [Except.ok.injEq, Prod.mk.injEq] at heq
            obtain ⟨-, -, rfl⟩ := heq
            exact ⟨hinv, hop⟩
          next w hw =>
            have hsvc := inputService_inv o.inPoll o.inOracle p w hvp hvo
              (by rw [hinv.1]; exact hinv.2.1)
              (fun hpw => by rw [hinv.1]; exact hinv.2.2 w hw hpw)
            split at heq
            next n p1' w1 hres =>
              rw [hres] at hsvc
              simp only [Except.ok.injEq, Prod.mk.injEq] at heq
              obtain ⟨-, -, rfl⟩ := heq
              refine ⟨⟨hsvc.1.trans hinv.1, ?_, ?_⟩, hsvc.2.1.trans hop⟩
              · rw [← hinv.1]
                exact hsvc.2.2.1
              · intro w' hw' hpw'
                simp only [Option.some.injEq] at hw'
                rw [← hinv.1]
                exact hsvc.2.2.2 (hw' ▸ hpw')
            next p1' w1 hres =>
              rw [hres] at hsvc
              simp only [Except.ok.injEq, Prod.mk.injEq] at heq
              obtain ⟨-, -, rfl⟩ := heq
              refine ⟨⟨hsvc.1.trans hinv.1, ?_, ?_⟩, hsvc.2.1.trans hop⟩
              · rw [← hinv.1]
                exact hsvc.2.2.1
              · intro w' hw' hpw'
                simp only [Option.some.injEq] at hw'
                rw [← hinv.1]
                exact hsvc.2.2.2 (hw' ▸ hpw')
            next hres => simp at heq
            next hres => simp at heq
        have hinv2 : readerInvB B p2 ∧ p2.handleOpen = true := by
          unfold runOutputPhase at heq2
          split at heq2
          next hw =>
            simp only [Except.ok.injEq, Prod.mk.injEq] at heq2
            obtain ⟨-, -, rfl⟩ := heq2
            exact hinv1
          next w hw =>
            have hpre :=
              outputService_preservesInputSide o.outPoll o.outOracle p1 w
            split at heq2
            next n p2' w1 hres =>
              rw [hres] at hpre
              simp only [Except.ok.injEq, Prod.mk.injEq] at heq2
              obtain ⟨-, -, rfl⟩ := heq2
              refine ⟨⟨hpre.2.2.1.trans hinv1.1.1, ?_, ?_⟩,
                hpre.2.2.2.trans hinv1.2⟩
              · rw [show (({ p2' with outputWorker := some w1 } :
                    PipeState)).inQueue = p1.inQueue from hpre.1]
                exact hinv1.1.2.1
              · intro w' hw' hpw'
                rw [show (({ p2' with outputWorker := some w1 } :
                    PipeState)).inQueue = p1.inQueue from hpre.1]
                refine hinv1.1.2.2 w' ?_ hpw'
                rw [← hpre.2.1]
                exact hw'
            next p2' w1 hres =>
              rw [hres] at hpre
              simp only [Except.ok.injEq, Prod.mk.injEq] at heq2
              obtain ⟨-, -, rfl⟩ := heq2
              refine ⟨⟨hpre.2.2.1.trans hinv1.1.1, ?_, ?_⟩,
                hpre.2.2.2.trans hinv1.2⟩
              · rw [show (({ p2' with outputWorker := some w1 } :
                    PipeState)).inQueue = p1.inQueue from hpre.1]
                exact hinv1.1.2.1
              · intro w' hw' hpw'
                rw [show (({ p2' with outputWorker := some w1 } :
                    PipeState)).inQueue = p1.inQueue from hpre.1]
                refine hinv1.1.2.2 w' ?_ hpw'
                rw [← hpre.2.1]
                exact hw'
            next hres => simp at heq2
            next hres => simp at heq2
        split at h
        next herr =>
          cases h
          have hcp : closePipe p2 =
              { p2 with handleOpen := false, inputWorker := none,
                        outputWorker := none } := by
            unfold closePipe
            rw [if_neg (by simp [hinv2.2])]
          rw [hcp]
          exact ⟨hinv2.1.1, hinv2.1.2.1, fun w' hw' => by simp at hw'⟩
        next herr =>
          cases h
          exact hinv2.1
  · rw [if_pos (by simpa using hop)] at h
    cases h
    exact hinv

/-- Every single operation with physically possible transport responses
preserves the Reader-side invariant. -/
theorem applyOp_readerInv (B : Int) (p : PipeState) (op : PipeOp)
    (p' : PipeState) (hv : validOp op = true) (hinv : readerInvB B p)
    (h : applyOp p op = some p') : readerInvB B p' := by
  cases op with
  | doWrite data =>
    cases h
    exact ⟨hinv.1, hinv.2.1, fun w hw => hinv.2.2 w hw⟩
  | doRead n =>
    cases h
    have hle : (p.inQueue.drop (min n p.inQueue.length)).length ≤
        p.inQueue.length := by
      simp [List.length_drop]
    refine ⟨hinv.1, ?_, ?_⟩
    · have := hinv.2.1
      simp only [read]
      push_cast
      omega
    · intro w hw hpw
      have h1 := hinv.2.2 w hw hpw
      simp only [read]
      push_cast
      omega
  | doReadAll =>
    cases h
    have h0 : (0 : Int) ≤ (p.inQueue.length : Int) := by positivity
    refine ⟨hinv.1, ?_, ?_⟩
    · have := hinv.2.1
      simp only [readAll, List.length_nil]
      omega
    · intro w hw hpw
      have h1 := hinv.2.2 w hw hpw
      simp only [readAll, List.length_nil]
      omega
  | doPeek n =>
    cases h
    exact hinv
  | doTick o =>
    simp only [applyOp] at h
    split at h
    next hres =>
      rename_i bb pp hh
      cases h
      exact serviceIo_readerInv B p o [] hv hinv bb p' hh hres
    next hres => simp at h

/-- Any run of externally driven operations with physically possible
transport responses preserves the Reader-side invariant. -/
theorem runOps_readerInv (ops : List PipeOp) :
    ∀ (B : Int) (p : PipeState), ops.all validOp = true → readerInvB B p →
      ∀ p', runOps p ops = some p' → readerInvB B p' := by
  induction ops with
  | nil =>
    intro B p _ hinv p' h
    simp only [runOps, Option.some.injEq] at h
    exact h ▸ hinv
  | cons op ops ih =>
    intro B p hval hinv p' h
    simp only [List.all_cons, Bool.and_eq_true] at hval
    simp only [runOps] at h
    split at h
    next happ => simp at h
    next q happ =>
      exact ih B q hval.2 (applyOp_readerInv B p op q hval.1 hinv happ) p' h

/-! ## Claim theorems (part 2): the backpressure claim -/

/-- C2 (counterexample): on an endpoint whose read-capacity limit is
configured to 2, a single physically possible service tick (two synchronous
receive completions of 1 and 2 bytes) leaves `bytesAvailable()` at 3,
strictly above the configured limit — the claimed bound `bytesAvailable ≤
readBufferSize` is false. -/
theorem c2_backpressure_counterexample :
    runOps (setReadBufferSize connectedPipe 2) [PipeOp.doTick c2Tick] =
      some c2FinalState ∧
    [PipeOp.doTick c2Tick].all validOp = true ∧
    readBufferSize c2FinalState < (bytesAvailable c2FinalState : Int) := by
  refine ⟨by decide, by decide, by decide⟩

/-- C2 (amended): for any interleaving of writes, reads and service ticks
with physically possible transport responses, started from a freshly
connected endpoint configured with read-capacity limit `b ≥ 1`,
`bytesAvailable()` never exceeds `b - 1 + kIoSize`: the Reader issues a new
`kIoSize`-byte receive only when the endpoint is not closed and the
input-queue length is strictly below the limit, and each completed receive
appends at most `kIoSize` bytes. -/
theorem c2_backpressure_amended (b : Int) (ops : List PipeOp)
    (p' : PipeState) (hb : 1 ≤ b) (hv : ops.all validOp = true)
    (h : runOps (setReadBufferSize connectedPipe b) ops = some p') :
    (bytesAvailable p' : Int) ≤ b - 1 + (kIoSize : Int) := by
  have h0 : (0 : Int) ≤ (kIoSize : Int) := by positivity
  have hinv0 : readerInvB b (setReadBufferSize connectedPipe b) := by
    refine ⟨rfl, ?_, ?_⟩
    · simp only [setReadBufferSize, connectedPipe, newPipe, List.length_nil]
      push_cast
      omega
    · intro w hw hpw
      simp only [setReadBufferSize, connectedPipe, newPipe, freshWorker,
        Option.some.injEq] at hw
      rw [← hw] at hpw
      simp at hpw
  exact (runOps_readerInv ops b _ hv hinv0 p' h).2.1

/-- Witness for the amended C2 at a concrete run: the counterexample trace
itself satisfies the amended bound at `b = 2`. -/
theorem c2_backpressure_amended_witness :
    (bytesAvailable c2FinalState : Int) ≤ 2 - 1 + (kIoSize : Int) :=
  c2_backpressure_amended 2 [PipeOp.doTick c2Tick] c2FinalState
    (by decide) (by decide) (by decide)

end WinptyPipe
